import Mathlib

/-!
# Verification of the SmartWeld gemini-agent core

A shallow embedding, in Lean 4, of the decision logic of the
`Pankaj89Acharjee/gemini-agent` repository:

* the telemetry anomaly-analysis pipeline (`src/services/agentAI.ts`,
  `src/app.ts`): `analyzeHighCurrent`, its circuit-breaker branch, its
  markdown-fence response cleaning, its threshold-ratio fallback, and the
  `POST /api/telemetry` ingestion loop;
* the query classifiers (`classifyQuery` of the enhanced agent and of the
  hybrid agent) and the two `SmartWeldSQLTool._call` variants.

Modelling conventions, stated once here:

* JavaScript numbers are idealised as exact rationals extended with `NaN`
  and signed infinities (`JVal`); binary64 rounding and negative zero are
  not modelled.  A missing numeric field behaves as `NaN` under the
  arithmetic and comparison operators the code uses, so it is mapped to
  `JVal.nan` as well.
* Wall-clock timestamps (`new Date().toISOString()`, the
  `analysisTimestamp` fields) are ignored; `Date.now()` is a rational
  parameter `now` where the code reads it.
* The Gemini transport and `JSON.parse` are the external boundary.  An
  oracle interaction is modelled by its observable outcome: the transport
  throws (with or without HTTP status 429), or it returns text that
  `JSON.parse` rejects, or text that parses to an object whose relevant
  fields are optional strings / booleans (`ParsedResponse`; `none` covers
  both an absent field and JSON `null`, which are equally falsy in JS).
* The relational store is external: the ingestion model keeps the stored
  rows as an explicit list, and the raw-SQL tools take the store as an
  opaque `String → String` query function.
* JavaScript string operations (`trim`, `toLowerCase`, `includes`,
  `startsWith`, `split`, and the two `replace(/…/g, '')` calls) are
  modelled character-exactly on `List Char`; `toLowerCase` maps only the
  ASCII range (every keyword the code matches is ASCII).
-/

/-! ## JavaScript numbers -/

/-- An idealised JavaScript number: `NaN`, `±Infinity`, or an exact
rational.  `inf true` is `+Infinity`, `inf false` is `-Infinity`. -/
inductive JVal where
  | nan : JVal
  | inf (pos : Bool) : JVal
  | num (q : ℚ) : JVal
deriving DecidableEq, Repr

/-- JavaScript `a > b`.  Any comparison with `NaN` is `false`. -/
def jsGt : JVal → JVal → Bool
  | .nan, _ => false
  | _, .nan => false
  | .num a, .num b => decide (b < a)
  | .num _, .inf b => !b
  | .inf a, .num _ => a
  | .inf a, .inf b => a && !b

/-- JavaScript `a - b` (NaN-propagating; `Infinity - Infinity = NaN`). -/
def jsSub : JVal → JVal → JVal
  | .nan, _ => .nan
  | _, .nan => .nan
  | .num a, .num b => .num (a - b)
  | .num _, .inf b => .inf (!b)
  | .inf a, .num _ => .inf a
  | .inf a, .inf b => if a = b then .nan else .inf a

/-- JavaScript `a / b`, ignoring negative zero: a finite number divided by
zero gives a signed infinity, `0 / 0` gives `NaN`. -/
def jsDiv : JVal → JVal → JVal
  | .nan, _ => .nan
  | _, .nan => .nan
  | .inf _, .inf _ => .nan
  | .inf a, .num b => if b < 0 then .inf (!a) else .inf a
  | .num _, .inf _ => .num 0
  | .num a, .num b =>
      if b = 0 then
        if a = 0 then .nan else if 0 < a then .inf true else .inf false
      else .num (a / b)

/-! ## Data model of the anomaly pipeline (`src/services/agentAI.ts`) -/

/-- One telemetry row as it arrives in a batch (interface fields of
`TelemetryData` minus the threshold; timestamps are not modelled). -/
structure TelemetryRecord where
  deviceId : String
  temperature : JVal
  voltage : JVal
  current : JVal
  gas : JVal
deriving DecidableEq, Repr

/-- The input of `analyzeHighCurrent` (`TelemetryData` in
`src/services/agentAI.ts`): a telemetry row plus the caller's
`CURRENT_THRESHOLD`. -/
structure TelemetryData where
  deviceId : String
  temperature : JVal
  voltage : JVal
  current : JVal
  gas : JVal
  CURRENT_THRESHOLD : JVal
deriving DecidableEq, Repr

/-- The runtime shape of `analyzeHighCurrent`'s result.  `severity` is a
`String` because at runtime nothing restricts it to the four declared
literals: the parsed oracle JSON is passed through an unchecked cast. -/
structure AnalysisResult where
  severity : String
  possibleCause : String
  recommendation : String
  isCurrentExceeded : Bool
deriving DecidableEq, Repr

/-- The fields of the object produced by `JSON.parse` on the cleaned
oracle response, as the code reads them.  `none` models an absent field or
JSON `null` (both falsy under `||`). -/
structure ParsedResponse where
  severity : Option String
  possibleCause : Option String
  recommendation : Option String
  isCurrentExceeded : Option Bool
deriving DecidableEq, Repr

/-- A row of the `DeviceTelemetries` store: the telemetry readings plus
the analysis columns.  Rows are written in two places: the route's
`bulkCreate` inserts bare rows (analysis columns absent) that its
`data.update(...)` later fills — without touching `isCurrentExceeded` —
and `analyzeHighCurrent`'s success path inserts an already-analyzed row
via `DeviceTelemetry.create(recordToSave)` (agentAI.ts lines 113-126). -/
structure StoredRecord where
  telemetry : TelemetryRecord
  severity : Option String := none
  possibleCause : Option String := none
  recommendation : Option String := none
  isCurrentExceeded : Option Bool := none
deriving DecidableEq, Repr

/-- Observable outcome of one oracle interaction inside
`analyzeHighCurrent`'s `try` block. -/
inductive OracleBehaviour where
  /-- transport succeeded and `JSON.parse` of the cleaned text succeeded -/
  | ok (p : ParsedResponse)
  /-- transport succeeded but `JSON.parse` threw -/
  | malformed
  /-- transport threw; `is429` says whether the error carried HTTP 429 -/
  | failure (is429 : Bool)
deriving DecidableEq, Repr

/-- JavaScript `v || d` for an optional string field: `undefined`, `null`
and the empty string are falsy. -/
def jsOrStr (v : Option String) (d : String) : String :=
  match v with
  | none => d
  | some s => if s = "" then d else s

/-- The `catch`-branch fallback of `analyzeHighCurrent`
(`src/services/agentAI.ts` lines 144-161): severity from the exceedance
ratio `(current - CURRENT_THRESHOLD) / CURRENT_THRESHOLD`. -/
def fallbackAnalysis (data : TelemetryData) : AnalysisResult :=
  let isCurrentExceeded := jsGt data.current data.CURRENT_THRESHOLD
  let severity :=
    if isCurrentExceeded then
      let exceedanceRatio := jsDiv (jsSub data.current data.CURRENT_THRESHOLD) data.CURRENT_THRESHOLD
      if jsGt exceedanceRatio (.num (1/2)) then "CRITICAL" else "WARNING"
    else "NORMAL"
  { severity := severity
    possibleCause := "AI analysis failed - using threshold-based fallback"
    recommendation :=
      if isCurrentExceeded then "Current exceeds threshold. Check equipment immediately."
      else "All parameters appear normal."
    isCurrentExceeded := isCurrentExceeded }

/-- `analyzeHighCurrent` (`src/services/agentAI.ts` lines 34-164).

Faithful to the source, `isApiBlocked` and `blockUntil` are declared as
locals of the function body (lines 36-37) and re-initialised to
`false` / `0` on every call; the 429 handler's assignments to them (lines
137-138) die with the call frame, so they do not appear in the model's
observable state — the model, like the code, carries no cross-call state.

The result bundles the function's three observables: the returned
`AnalysisResult`; whether the oracle transport was invoked
(`model.generateContent` reached), the call-count observable of the
spec's circuit-breaker test; and the row the success path inserts into
the `DeviceTelemetries` store via `DeviceTelemetry.create(recordToSave)`
(lines 113-126) — `none` on the short-circuit and `catch` paths, which
perform no insert.  A rejection of the `create` call itself lands in the
same `catch` and yields the fallback result with no row inserted, the
same observables as `.malformed`, so it needs no constructor of its
own. -/
def analyzeHighCurrent (now : ℚ) (data : TelemetryData) (oracle : OracleBehaviour) :
    AnalysisResult × Bool × Option StoredRecord :=
  let isApiBlocked := false
  let blockUntil : ℚ := 0
  if isApiBlocked && decide (now < blockUntil) then
    ({ severity := "UNKNOWN"
       possibleCause := "API blocked due to rate limits of using model gemini-1.5-flash"
       recommendation := "Wait until API is available"
       isCurrentExceeded := jsGt data.current data.CURRENT_THRESHOLD }, false, none)
  else
    let isCurrentExceeded := jsGt data.current data.CURRENT_THRESHOLD
    match oracle with
    | .ok parsedResult =>
        let finalResult : AnalysisResult :=
          { severity := jsOrStr parsedResult.severity "UNKNOWN"
            possibleCause := jsOrStr parsedResult.possibleCause "Analysis incomplete"
            recommendation := jsOrStr parsedResult.recommendation "Manual inspection required"
            isCurrentExceeded := isCurrentExceeded }
        let recordToSave : StoredRecord :=
          { telemetry :=
              { deviceId := data.deviceId, temperature := data.temperature
                voltage := data.voltage, current := data.current, gas := data.gas }
            severity := some finalResult.severity
            possibleCause := some finalResult.possibleCause
            recommendation := some finalResult.recommendation
            isCurrentExceeded := some isCurrentExceeded }
        (finalResult, true, some recordToSave)
    | .malformed => (fallbackAnalysis data, true, none)
    | .failure _ => (fallbackAnalysis data, true, none)

/-- A telemetry input with the given `current` and `CURRENT_THRESHOLD`
and `NaN` for the readings the fallback never consults. -/
def dataCT (c T : JVal) : TelemetryData :=
  { deviceId := "D1", temperature := .nan, voltage := .nan, current := c, gas := .nan
    CURRENT_THRESHOLD := T }

/-- Concrete telemetry input used by closed evaluations. -/
def sampleData : TelemetryData :=
  { deviceId := "D1", temperature := .num 25, voltage := .num 30, current := .num 120
    gas := .num 10, CURRENT_THRESHOLD := .num 50 }

/-- An oracle success whose JSON carries a severity outside the declared
enum (nothing in the code validates it). -/
def fatalParsed : ParsedResponse :=
  { severity := some "FATAL", possibleCause := some "spike", recommendation := some "stop"
    isCurrentExceeded := some false }

/-! ## JavaScript string primitives -/

/-- The character class `\s` of JavaScript regexes, which is also the set
removed by `String.prototype.trim`. -/
def jsWs (c : Char) : Bool :=
  c.val = 9 || c.val = 10 || c.val = 11 || c.val = 12 || c.val = 13 || c.val = 32 ||
  c.val = 0xa0 || c.val = 0x1680 || (0x2000 ≤ c.val && c.val ≤ 0x200a) ||
  c.val = 0x2028 || c.val = 0x2029 || c.val = 0x202f || c.val = 0x205f ||
  c.val = 0x3000 || c.val = 0xfeff

/-- Drop trailing `jsWs` characters. -/
def dropTrailWs (l : List Char) : List Char :=
  ((l.reverse).dropWhile jsWs).reverse

/-- JavaScript `String.prototype.trim` on the character list. -/
def trimChars (l : List Char) : List Char :=
  dropTrailWs (l.dropWhile jsWs)

/-- JavaScript `s.trim()`. -/
def trimStr (s : String) : String := ⟨trimChars s.data⟩

/-- ASCII-range `toLowerCase` of one character. -/
def jsLowerChar (c : Char) : Char :=
  if 65 ≤ c.val && c.val ≤ 90 then Char.ofNat (c.toNat + 32) else c

/-- JavaScript `s.toLowerCase()` (ASCII range; all matched keywords are
ASCII). -/
def toLowerStr (s : String) : String := ⟨s.data.map jsLowerChar⟩

/-- Does `pat` occur as a contiguous substring of `l`?  (JavaScript
`hay.includes(needle)` on character lists.) -/
def hasSub (pat : List Char) : List Char → Bool
  | [] => pat.isEmpty
  | c :: cs => pat.isPrefixOf (c :: cs) || hasSub pat cs

/-- JavaScript `hay.includes(needle)`. -/
def includesStr (hay needle : String) : Bool := hasSub needle.data hay.data

/-- JavaScript `s.startsWith(pat)`. -/
def startsWithStr (s pat : String) : Bool := pat.data.isPrefixOf s.data

/-! ## The markdown-fence cleaning of the oracle response

`src/services/agentAI.ts` lines 91-97:

    const responseText = result.response.text().trim();
    const cleanedResponse = responseText
        .replace(/```json\s*/g, '')
        .replace(/```\s*/g, '')
        .trim();

Both `replace(/pat\s*/g, '')` calls are modelled by a left-to-right scan
that, at each position, either removes one occurrence of the literal
pattern together with the maximal whitespace run that follows it, or
copies one character — exactly the global-regex semantics.  The scans are
written with explicit fuel (one unit per step, a step never grows the
list) so that every concrete evaluation reduces by `rfl`/`decide`. -/

/-- The backtick character, `` ` `` (U+0060). -/
def bq : Char := Char.ofNat 96

/-- The literal part of the regex `/```json\s*/`. -/
def jsonFencePat : List Char := [bq, bq, bq, 'j', 's', 'o', 'n']

/-- The literal part of the regex `/```\s*/`: three backticks. -/
def triplePat : List Char := [bq, bq, bq]

/-- Fuelled scan removing every `/```json\s*/` match. -/
def stripJsonFenceAux : Nat → List Char → List Char
  | 0, l => l
  | _ + 1, [] => []
  | n + 1, c :: cs =>
    if jsonFencePat.isPrefixOf (c :: cs) then
      stripJsonFenceAux n (((c :: cs).drop jsonFencePat.length).dropWhile jsWs)
    else c :: stripJsonFenceAux n cs

/-- `s.replace(/```json\s*/g, '')` on the character list. -/
def stripJsonFence (l : List Char) : List Char := stripJsonFenceAux l.length l

/-- Fuelled scan removing every `/```\s*/` match. -/
def stripTripleAux : Nat → List Char → List Char
  | 0, l => l
  | _ + 1, [] => []
  | n + 1, c :: cs =>
    if triplePat.isPrefixOf (c :: cs) then
      stripTripleAux n (((c :: cs).drop triplePat.length).dropWhile jsWs)
    else c :: stripTripleAux n cs

/-- `s.replace(/```\s*/g, '')` on the character list. -/
def stripTriple (l : List Char) : List Char := stripTripleAux l.length l

/-- The whole cleaning pipeline of `analyzeHighCurrent`: trim, remove
```` ```json ```` markers, remove ```` ``` ```` markers, trim. -/
def cleanChars (l : List Char) : List Char :=
  trimChars (stripTriple (stripJsonFence (trimChars l)))

/-- `cleanChars` on strings (the value bound to `cleanedResponse`). -/
def cleanResponse (s : String) : String := ⟨cleanChars s.data⟩

/-- The fenced wrapping of the round-trip claim:
`'```json\n' + t + '\n```'`. -/
def fenceWrap (t : List Char) : List Char :=
  jsonFencePat ++ '\n' :: t ++ '\n' :: triplePat

/-- A JSON object text that contains a triple backtick inside a string
literal: `{"a":"```"}`. -/
def backtickJson : List Char := '{' :: '"' :: 'a' :: '"' :: ':' :: '"' :: bq :: bq :: bq :: ['"', '}']

/-- A backtick-free JSON object text: `{"a":1}`. -/
def plainJson : List Char := '{' :: '"' :: 'a' :: '"' :: ':' :: ['1', '}']

/-! ## Query classifiers -/

namespace Enhanced

/-!
The enhanced agent's classifier (`classifyQuery` in the enhanced
conversational agent, `src/unnamed/part_000` lines 30-55).  It is a pure
keyword cascade: no oracle is consulted, the default is `complex`.
-/

/-- The enhanced classifier's classification union. -/
inductive Classification where
  | toolSpecific (tool : String)
  | simple (action : String)
  | complex
deriving DecidableEq, Repr

/-- `classifyQuery` of the enhanced agent: four keyword rules in source
order, then the `complex` default. -/
def classifyQuery (input : String) : Classification :=
  let lowerInput := toLowerStr input
  if includesStr lowerInput "list tables" || includesStr lowerInput "show tables" ||
     includesStr lowerInput "what tables" then
    .toolSpecific "listTables"
  else if includesStr lowerInput "schema" || includesStr lowerInput "structure" ||
     includesStr lowerInput "columns" then
    .toolSpecific "getSchema"
  else if includesStr lowerInput "sql" || includesStr lowerInput "query" ||
     includesStr lowerInput "select" || includesStr lowerInput "analyze" ||
     includesStr lowerInput "data" || includesStr lowerInput "find" then
    .toolSpecific "langchain"
  else if includesStr lowerInput "count" || includesStr lowerInput "how many" ||
     includesStr lowerInput "latest" then
    .simple "count_records"
  else
    .complex

end Enhanced

namespace Hybrid

/-!
The hybrid agent's stricter classifier (`classifyQuery` in
`src/unnamed/part_006` lines 25-96; the variant in `src/unnamed/part_005`
lines 116-168 has the same oracle fallback but no metric/device rules).
Five keyword rules, all yielding `complex`; if none matches, the oracle is
asked to answer `simple:<action>` or `complex`.  The oracle call
(`model.invoke`) is not wrapped in a `try`, so a transport failure
propagates out of `classifyQuery`; the model returns `Except Unit` to make
that observable.
-/

/-- The hybrid classifier's classification union. -/
inductive Classification where
  | simple (action : String)
  | complex
deriving DecidableEq, Repr

/-- Outcome of the classifier's oracle call: a response text, or a thrown
transport error. -/
inductive OracleOutcome where
  | responds (text : String)
  | fails
deriving DecidableEq, Repr

/-- JavaScript `response.split(':')[1]` when `response` starts with
`'simple:'` (so index 1 exists). -/
def splitColonSecond (response : String) : String :=
  (response.splitOn ":").getD 1 ""

/-- `classifyQuery` of the hybrid agent. -/
def classifyQuery (input : String) (oracle : OracleOutcome) : Except Unit Classification :=
  let lowerInput := toLowerStr input
  if includesStr lowerInput "maximum" || includesStr lowerInput "max" ||
     includesStr lowerInput "average" || includesStr lowerInput "avg" ||
     includesStr lowerInput "range" || includesStr lowerInput "performance" ||
     includesStr lowerInput "current" || includesStr lowerInput "temperature" ||
     includesStr lowerInput "voltage" then
    .ok .complex
  else if includesStr lowerInput "table" || includesStr lowerInput "schema" ||
     includesStr lowerInput "structure" || includesStr lowerInput "column" ||
     includesStr lowerInput "database structure" || includesStr lowerInput "how many tables" ||
     includesStr lowerInput "what tables" then
    .ok .complex
  else if (includesStr lowerInput "device" || includesStr lowerInput "devices") &&
     !includesStr lowerInput "current" && !includesStr lowerInput "temperature" &&
     !includesStr lowerInput "voltage" then
    .ok .complex
  else if includesStr lowerInput "sql" || includesStr lowerInput "query" ||
     includesStr lowerInput "select" then
    .ok .complex
  else if includesStr lowerInput "compare" || includesStr lowerInput "analyze" ||
     includesStr lowerInput "relationship" || includesStr lowerInput "between" ||
     includesStr lowerInput "and" || includesStr lowerInput "then" then
    .ok .complex
  else
    match oracle with
    | .fails => .error ()
    | .responds text =>
        let response := toLowerStr (trimStr text)
        if startsWithStr response "simple:" then
          .ok (.simple (splitColonSecond response))
        else
          .ok .complex

end Hybrid

/-! ## The two `SmartWeldSQLTool._call` variants -/

namespace Part008

/-- `SmartWeldSQLTool._call` of the enhanced toolkit (`src/unnamed/part_008`
lines 74-92): trims the input, rejects anything whose lower-cased text does
not start with `select`, otherwise queries the store.  Result: the returned
string and whether the statement reached the store. -/
def smartweldSqlQueryCall (store : String → String) (input : String) : String × Bool :=
  let trimmedQuery := trimStr input
  if startsWithStr (toLowerStr trimmedQuery) "select" then
    ("Query executed successfully. Results:\n" ++ store trimmedQuery, true)
  else
    ("Error: Only SELECT queries are allowed for security reasons.", false)

end Part008

namespace SqlToolkitTs

/-- `SmartWeldSQLTool._call` of `src/services/sql-toolkit.ts` (lines
21-31): no guard at all — the raw input string is handed to
`sequelize.query` unconditionally. -/
def smartweldSqlQueryCall (store : String → String) (input : String) : String × Bool :=
  (store input, true)

end SqlToolkitTs

/-- An arbitrary concrete store for closed evaluations. -/
def demoStore : String → String := fun _ => "[]"

/-! ## Telemetry ingestion (`src/app.ts`, `POST /api/telemetry`) -/

/-- The fixed threshold of `src/app.ts` line 12. -/
def appCurrentThreshold : JVal := .num 50

/-- Lift a telemetry row to the `analyzeHighCurrent` input, pairing it
with the route's fixed threshold (`src/app.ts` lines 51-59). -/
def toTelemetryData (r : TelemetryRecord) : TelemetryData :=
  { deviceId := r.deviceId, temperature := r.temperature, voltage := r.voltage
    current := r.current, gas := r.gas, CURRENT_THRESHOLD := appCurrentThreshold }

/-- `data.update({severity, possibleCause, recommendation, ...})` of
`src/app.ts` lines 65-70. -/
def attachAnalysis (st : StoredRecord) (a : AnalysisResult) : StoredRecord :=
  { st with severity := some a.severity, possibleCause := some a.possibleCause
            recommendation := some a.recommendation }

/-- Outcome of the per-record analysis+update step inside the route's
loop: `analyzeHighCurrent` itself never throws, so the only way the loop
can abort is the subsequent `data.update` rejecting. -/
inductive RecStep where
  /-- the oracle behaved as `b`; the `update` call succeeded -/
  | analysis (b : OracleBehaviour)
  /-- the oracle behaved as `b`; the `update` call threw -/
  | updateFails (b : OracleBehaviour)

/-- Outcome of the `for (const data of insertedRows)` loop of
`src/app.ts` lines 44-72. -/
structure LoopResult where
  /-- the bulk-inserted rows after the loop's in-place `update`s -/
  rows : List StoredRecord
  /-- the rows `analyzeHighCurrent`'s success-path `create` appended to
  the store, in insertion order -/
  created : List StoredRecord
  /-- the telemetry rows for which `analyzeHighCurrent` was invoked, in
  order -/
  analyzed : List TelemetryRecord
  /-- whether an exception aborted the loop (surfacing as the route's 500
  response — with no transaction, already-persisted rows stay
  persisted) -/
  failed : Bool
deriving DecidableEq, Repr

/-- The `for (const data of insertedRows)` loop of `src/app.ts` lines
44-72.  `steps k` is the outcome of the `k`-th analysis (the oracle-call
counter only advances when `analyzeHighCurrent` is reached).  Whatever the
per-record outcome, the `analyzeHighCurrent` call runs to completion — so
its success-path store insert happens — before the `data.update` that may
abort the loop. -/
def runLoop (steps : Nat → RecStep) : Nat → List StoredRecord → LoopResult
  | _, [] => ⟨[], [], [], false⟩
  | k, st :: rest =>
    if jsGt st.telemetry.current appCurrentThreshold then
      match steps k with
      | .updateFails b =>
          let res := analyzeHighCurrent 0 (toTelemetryData st.telemetry) b
          ⟨st :: rest, res.2.2.toList, [st.telemetry], true⟩
      | .analysis b =>
          let res := analyzeHighCurrent 0 (toTelemetryData st.telemetry) b
          let r := runLoop steps (k + 1) rest
          ⟨attachAnalysis st res.1 :: r.rows, res.2.2.toList ++ r.created,
           st.telemetry :: r.analyzed, r.failed⟩
    else
      let r := runLoop steps k rest
      ⟨st :: r.rows, r.created, r.analyzed, r.failed⟩

/-- Result of one `POST /api/telemetry` request. -/
structure IngestOutcome where
  /-- the final store contents, in insertion order -/
  store : List StoredRecord
  /-- the telemetry rows for which `analyzeHighCurrent` was invoked -/
  analyzed : List TelemetryRecord
  /-- whether a per-record failure aborted the loop -/
  failed : Bool
deriving DecidableEq, Repr

/-- The `POST /api/telemetry` handler (`src/app.ts` lines 33-99): step (1)
`DeviceTelemetry.bulkCreate(dataBatch)` persists the whole raw batch
unconditionally; step (2) the loop walks the inserted rows, updating them
in place while `analyzeHighCurrent`'s success-path `create` appends
further rows after them. -/
def ingest (store : List StoredRecord) (batch : List TelemetryRecord)
    (steps : Nat → RecStep) : IngestOutcome :=
  let insertedRows := batch.map (fun r => ({ telemetry := r } : StoredRecord))
  let r := runLoop steps 0 insertedRows
  ⟨store ++ r.rows ++ r.created, r.analyzed, r.failed⟩

/-- A two-row batch for closed evaluations: one exceeding row, one normal
row. -/
def demoBatch : List TelemetryRecord :=
  [ { deviceId := "D1", temperature := .num 90, voltage := .num 30, current := .num 120
      gas := .num 12 },
    { deviceId := "D2", temperature := .num 20, voltage := .num 30, current := .num 10
      gas := .num 12 } ]

/-- Per-record outcomes for closed evaluations: every analysis falls back
(malformed oracle reply) and every update succeeds. -/
def demoSteps : Nat → RecStep := fun _ => .analysis .malformed

/-! # Theorems -/

/-! ## C1 — circuit-breaker visibility across calls -/

/-- **C1** (code bug evidence).  The claim says that once a 429 opens the
circuit breaker, the next `analyze` call inside the cool-down window does
not invoke the oracle transport and short-circuits.  In the source the
breaker flags `isApiBlocked`/`blockUntil` are *locals* of
`analyzeHighCurrent`, re-initialised to `false`/`0` on entry, so the state
set by one call is never visible to the next: the short-circuit branch is
unreachable and every call — in particular a call made right after a 429,
at any `now` — invokes the oracle transport. -/
theorem analyzeHighCurrent_always_invokes_oracle (now : ℚ) (data : TelemetryData)
    (b : OracleBehaviour) : (analyzeHighCurrent now data b).2.1 = true := by
  cases b <;> simp [analyzeHighCurrent]

/-! ## C2 — severity always in the declared enum -/

/-- **C2** (code bug evidence).  The claim says the returned severity is
always one of CRITICAL/WARNING/NORMAL/UNKNOWN for every oracle behaviour.
The success path passes the parsed JSON's `severity` field through
`parsedResult.severity || "UNKNOWN"` without validation, so an oracle
success whose JSON says `"severity": "FATAL"` makes `analyzeHighCurrent`
return severity `"FATAL"`, outside the enum declared by the
`AnalysisResult` interface.  (The no-throw half of the claim does hold:
the model is total and the `try`/`catch` covers every throwing
operation.) -/
theorem analyzeHighCurrent_severity_escapes_enum :
    (analyzeHighCurrent 0 sampleData (.ok fatalParsed)).1.severity = "FATAL" ∧
    "FATAL" ∉ (["CRITICAL", "WARNING", "NORMAL", "UNKNOWN"] : List String) := by
  exact ⟨rfl, by decide⟩

/-! ## C10 — `isCurrentExceeded` is locally determined -/

/-- **C10** (confirmed).  In every branch — short-circuit, success,
fallback — the returned `isCurrentExceeded` equals the locally computed
`current > CURRENT_THRESHOLD`; consequently two runs on the same
telemetry that differ only in time and oracle behaviour (including a
response asserting a different `isCurrentExceeded`) return the same
`isCurrentExceeded`. -/
theorem analyzeHighCurrent_isCurrentExceeded_local (now now' : ℚ) (data : TelemetryData)
    (b b' : OracleBehaviour) :
    (analyzeHighCurrent now data b).1.isCurrentExceeded
        = jsGt data.current data.CURRENT_THRESHOLD ∧
    (analyzeHighCurrent now data b).1.isCurrentExceeded
        = (analyzeHighCurrent now' data b').1.isCurrentExceeded := by
  have key : ∀ (n : ℚ) (bb : OracleBehaviour),
      (analyzeHighCurrent n data bb).1.isCurrentExceeded
        = jsGt data.current data.CURRENT_THRESHOLD := by
    intro n bb
    cases bb <;> simp [analyzeHighCurrent, fallbackAnalysis]
  exact ⟨key now b, (key now b).trans (key now' b').symm⟩

/-! ## C5 — the read-only SQL tool's SELECT guard -/

/-- **C5** (counterexample to the claim as stated).  The
`SmartWeldSQLTool._call` of `src/services/sql-toolkit.ts` has no SELECT
guard: `"DROP TABLE x"` is handed to `sequelize.query` and thus executed
against the store, and no error string is produced. -/
theorem sqlToolkitTs_executes_drop_table :
    (SqlToolkitTs.smartweldSqlQueryCall demoStore "DROP TABLE x").2 = true := rfl

/-- **C5** (amended claim).  The guarded variant of the tool
(`src/unnamed/part_008`) does satisfy the claim: any input whose trimmed,
lower-cased text does not start with `select` yields exactly the security
error — whose text mentions "SELECT queries are allowed" — and the
statement never reaches the store. -/
theorem part008_sql_tool_rejects_non_select (store : String → String) (input : String)
    (h : startsWithStr (toLowerStr (trimStr input)) "select" = false) :
    Part008.smartweldSqlQueryCall store input =
      ("Error: Only SELECT queries are allowed for security reasons.", false) ∧
    includesStr "Error: Only SELECT queries are allowed for security reasons."
      "SELECT queries are allowed" = true := by
  refine ⟨?_, by decide⟩
  simp [Part008.smartweldSqlQueryCall, h]

/-- Witness for `part008_sql_tool_rejects_non_select` at the claim's own
input `"DROP TABLE x"`. -/
theorem part008_sql_tool_rejects_non_select_witness :
    startsWithStr (toLowerStr (trimStr "DROP TABLE x")) "select" = false ∧
    Part008.smartweldSqlQueryCall demoStore "DROP TABLE x" =
      ("Error: Only SELECT queries are allowed for security reasons.", false) :=
  ⟨by decide, (part008_sql_tool_rejects_non_select demoStore "DROP TABLE x" (by decide)).1⟩

/-! ## C6 — table-listing rule has first precedence -/

/-- **C6** (confirmed).  In the enhanced classifier the table-listing rule
is the first check of the cascade, so any question whose lower-cased text
contains "list tables" or "show tables" classifies as
`tool_specific/listTables`, whatever other keywords are present. -/
theorem enhanced_classify_list_tables_first (input : String)
    (h : includesStr (toLowerStr input) "list tables" = true ∨
         includesStr (toLowerStr input) "show tables" = true) :
    Enhanced.classifyQuery input = .toolSpecific "listTables" := by
  unfold Enhanced.classifyQuery
  rcases h with h | h <;> simp [h]

/-- Witness for `enhanced_classify_list_tables_first` on a question that
also contains schema, sql, data, count, device and metric keywords. -/
theorem enhanced_classify_list_tables_first_witness :
    includesStr (toLowerStr "Show tables, then the schema, sql data count for device current")
      "show tables" = true ∧
    Enhanced.classifyQuery "Show tables, then the schema, sql data count for device current"
      = .toolSpecific "listTables" :=
  ⟨by decide, enhanced_classify_list_tables_first _ (Or.inr (by decide))⟩

/-! ## C7 — metric keywords force `complex` in the hybrid classifier -/

/-- **C7** (confirmed).  The metric-keyword rule is the first check of the
hybrid classifier, strictly before the device rule (which moreover
explicitly excludes the metric keywords), so any question containing
current / temperature / voltage / maximum / average classifies as
`complex` for every oracle behaviour — in particular when "device" or
"devices" also appears. -/
theorem hybrid_classify_metric_keywords_complex (input : String)
    (oracle : Hybrid.OracleOutcome)
    (h : includesStr (toLowerStr input) "current" = true ∨
         includesStr (toLowerStr input) "temperature" = true ∨
         includesStr (toLowerStr input) "voltage" = true ∨
         includesStr (toLowerStr input) "maximum" = true ∨
         includesStr (toLowerStr input) "average" = true) :
    Hybrid.classifyQuery input oracle = .ok .complex := by
  unfold Hybrid.classifyQuery
  rcases h with h | h | h | h | h <;> simp [h]

/-- Witness for `hybrid_classify_metric_keywords_complex` on a question
that also contains "device", with a failing oracle (never consulted). -/
theorem hybrid_classify_metric_keywords_complex_witness :
    includesStr (toLowerStr "What is the maximum current for device WM001?") "current" = true ∧
    Hybrid.classifyQuery "What is the maximum current for device WM001?" .fails
      = .ok .complex :=
  ⟨by decide, hybrid_classify_metric_keywords_complex _ .fails (Or.inl (by decide))⟩

/-! ## C8 — classify never fails -/

/-- **C8** (counterexample to the claim as stated).  The hybrid
`classifyQuery` does not wrap its `model.invoke` call in a `try`: on a
question matching no keyword rule ("hello"), a throwing oracle transport
makes `classifyQuery` itself raise to its caller instead of returning
`complex`. -/
theorem hybrid_classify_propagates_transport_failure :
    Hybrid.classifyQuery "hello" .fails = .error () := rfl

/-- **C8** (amended claim).  Whenever the oracle *returns* text, the
classifier never fails: any response that — after trim and lower-casing —
does not start with `simple:` yields `complex`, for every question
(keyword-matching questions yield `complex`/the rule's result without
consulting the oracle at all, and in this variant every keyword rule
yields `complex`). -/
theorem hybrid_classify_unparseable_defaults_complex (input text : String)
    (h : startsWithStr (toLowerStr (trimStr text)) "simple:" = false) :
    Hybrid.classifyQuery input (.responds text) = .ok .complex := by
  simp [Hybrid.classifyQuery, h]

/-- Witness for `hybrid_classify_unparseable_defaults_complex`: a
keyword-free question with an unparseable oracle reply. -/
theorem hybrid_classify_unparseable_defaults_complex_witness :
    startsWithStr (toLowerStr (trimStr "I am not sure about this one")) "simple:" = false ∧
    Hybrid.classifyQuery "hello" (.responds "I am not sure about this one") = .ok .complex :=
  ⟨by decide,
   hybrid_classify_unparseable_defaults_complex "hello" "I am not sure about this one" (by decide)⟩

/-! ## C3 — the exceedance-ratio fallback boundaries -/

/-- On finite inputs with a nonzero threshold, the fallback severity is a
pure function of the position of `current` relative to `T` and `3/2 · T`. -/
theorem fallbackAnalysis_severity_eq (c T : ℚ) (hT : 0 < T) :
    (fallbackAnalysis (dataCT (.num c) (.num T))).severity =
      if T < c then (if 3/2 * T < c then "CRITICAL" else "WARNING") else "NORMAL" := by
  have hT0 : T ≠ 0 := ne_of_gt hT
  have hiff : ((1 : ℚ)/2 < (c - T)/T) ↔ 3/2 * T < c := by
    rw [lt_div_iff₀ hT]
    constructor <;> intro <;> linarith
  simp only [fallbackAnalysis, dataCT, jsGt, jsSub, jsDiv, hT0, if_false, ite_false,
    decide_eq_true_eq, hiff]

/-- **C3** (confirmed).  For every threshold `T > 0` the fallback taken on
oracle failure yields: CRITICAL at `current = 2T`; WARNING at
`current = 1.2T`; NORMAL whenever `current ≤ T`; WARNING exactly at the
boundary `current = 1.5T` (ratio `= 0.5` is not `> 0.5`); CRITICAL
strictly above `1.5T`; WARNING for every strictly exceeding current up to
the boundary. -/
theorem fallback_exceedance_boundaries (T c : ℚ) (hT : 0 < T) :
    (fallbackAnalysis (dataCT (.num (2 * T)) (.num T))).severity = "CRITICAL" ∧
    (fallbackAnalysis (dataCT (.num (6/5 * T)) (.num T))).severity = "WARNING" ∧
    (c ≤ T → (fallbackAnalysis (dataCT (.num c) (.num T))).severity = "NORMAL") ∧
    (fallbackAnalysis (dataCT (.num (3/2 * T)) (.num T))).severity = "WARNING" ∧
    (3/2 * T < c → (fallbackAnalysis (dataCT (.num c) (.num T))).severity = "CRITICAL") ∧
    (T < c → c ≤ 3/2 * T →
      (fallbackAnalysis (dataCT (.num c) (.num T))).severity = "WARNING") := by
  refine ⟨?_, ?_, ?_, ?_, ?_, ?_⟩
  · rw [fallbackAnalysis_severity_eq _ _ hT, if_pos (by linarith), if_pos (by linarith)]
  · rw [fallbackAnalysis_severity_eq _ _ hT, if_pos (by linarith),
      if_neg (by intro hc; linarith)]
  · intro h
    rw [fallbackAnalysis_severity_eq _ _ hT, if_neg (not_lt.mpr h)]
  · rw [fallbackAnalysis_severity_eq _ _ hT, if_pos (by linarith),
      if_neg (lt_irrefl (3/2 * T))]
  · intro h
    rw [fallbackAnalysis_severity_eq _ _ hT, if_pos (by linarith), if_pos h]
  · intro h1 h2
    rw [fallbackAnalysis_severity_eq _ _ hT, if_pos h1, if_neg (not_lt.mpr h2)]

/-- Witness for `fallback_exceedance_boundaries` at `T = 50` with
`current = 100, 40, 80, 70` (double, within threshold, strictly above the
1.5× boundary, strictly between threshold and boundary). -/
theorem fallback_exceedance_boundaries_witness :
    (0 : ℚ) < 50 ∧ (40 : ℚ) ≤ 50 ∧ (3/2 * 50 : ℚ) < 80 ∧ (50 : ℚ) < 70 ∧
      (70 : ℚ) ≤ 3/2 * 50 ∧
    (fallbackAnalysis (dataCT (.num (2 * 50)) (.num 50))).severity = "CRITICAL" ∧
    (fallbackAnalysis (dataCT (.num 40) (.num 50))).severity = "NORMAL" ∧
    (fallbackAnalysis (dataCT (.num 80) (.num 50))).severity = "CRITICAL" ∧
    (fallbackAnalysis (dataCT (.num 70) (.num 50))).severity = "WARNING" :=
  ⟨by norm_num, by norm_num, by norm_num, by norm_num, by norm_num,
   (fallback_exceedance_boundaries 50 40 (by norm_num)).1,
   (fallback_exceedance_boundaries 50 40 (by norm_num)).2.2.1 (by norm_num),
   (fallback_exceedance_boundaries 50 80 (by norm_num)).2.2.2.2.1 (by norm_num),
   (fallback_exceedance_boundaries 50 70 (by norm_num)).2.2.2.2.2 (by norm_num) (by norm_num)⟩

/-! ## C4 — persist first, analyze per exceeding record, never roll back -/

/-- The row `analyzeHighCurrent` inserts into the store, when it inserts
one, carries the input's telemetry readings unchanged and its analysis
fields filled in. -/
theorem analyzeHighCurrent_created_row (now : ℚ) (data : TelemetryData)
    (b : OracleBehaviour) (row : StoredRecord)
    (h : (analyzeHighCurrent now data b).2.2 = some row) :
    row.telemetry = { deviceId := data.deviceId, temperature := data.temperature
                      voltage := data.voltage, current := data.current, gas := data.gas } ∧
    row.severity.isSome = true := by
  cases b with
  | ok p =>
    simp only [analyzeHighCurrent, Bool.false_and, Bool.false_eq_true, if_false,
      Option.some.injEq] at h
    rw [← h]
    exact ⟨rfl, rfl⟩
  | malformed => simp [analyzeHighCurrent] at h
  | failure is429 => simp [analyzeHighCurrent] at h

/-- Loop invariant of the per-record analysis loop: the bulk-inserted
telemetry rows are exactly preserved for *every* outcome (including an
aborting update failure); only strictly-exceeding rows are ever analyzed;
every row the loop's analyses append to the store belongs to an exceeding
record and carries its analysis; and on a clean pass the analyzed rows
are exactly the exceeding ones, each with its analysis attached. -/
theorem runLoop_spec (steps : Nat → RecStep) (rows : List StoredRecord) : ∀ (k : Nat),
    ((runLoop steps k rows).rows.map StoredRecord.telemetry = rows.map StoredRecord.telemetry) ∧
    (∀ r ∈ (runLoop steps k rows).analyzed, jsGt r.current appCurrentThreshold = true) ∧
    (∀ row ∈ (runLoop steps k rows).created,
      jsGt row.telemetry.current appCurrentThreshold = true ∧ row.severity.isSome = true) ∧
    ((runLoop steps k rows).failed = false →
      (runLoop steps k rows).analyzed =
        (rows.map StoredRecord.telemetry).filter (fun r => jsGt r.current appCurrentThreshold) ∧
      ∀ st ∈ (runLoop steps k rows).rows,
        jsGt st.telemetry.current appCurrentThreshold = true → st.severity.isSome = true) := by
  induction rows with
  | nil => intro k; simp [runLoop]
  | cons st rest ih =>
    intro k
    have hcreated : ∀ (b : OracleBehaviour) (row : StoredRecord),
        row ∈ (analyzeHighCurrent 0 (toTelemetryData st.telemetry) b).2.2.toList →
        jsGt st.telemetry.current appCurrentThreshold = true →
        jsGt row.telemetry.current appCurrentThreshold = true ∧ row.severity.isSome = true := by
      intro b row hrow hex
      rw [Option.mem_toList, Option.mem_def] at hrow
      obtain ⟨htel, hsev⟩ := analyzeHighCurrent_created_row 0 _ b row hrow
      have htel' : row.telemetry = st.telemetry := by
        rw [htel]; rfl
      rw [htel']
      exact ⟨hex, hsev⟩
    by_cases hex : jsGt st.telemetry.current appCurrentThreshold = true
    · cases hstep : steps k with
      | updateFails b =>
          refine ⟨by simp [runLoop, hex, hstep], ?_, ?_, ?_⟩
          · intro r hr
            simp [runLoop, hex, hstep] at hr
            simpa [hr] using hex
          · intro row hrow
            simp only [runLoop, hex, if_true, hstep] at hrow
            exact hcreated b row hrow hex
          · intro hfail
            simp [runLoop, hex, hstep] at hfail
      | analysis b =>
          obtain ⟨ih1, ih2, ih3, ih4⟩ := ih (k + 1)
          refine ⟨?_, ?_, ?_, ?_⟩
          · simpa [runLoop, hex, hstep, attachAnalysis] using ih1
          · intro r hr
            simp [runLoop, hex, hstep] at hr
            rcases hr with hr | hr
            · simpa [hr] using hex
            · exact ih2 r hr
          · intro row hrow
            simp only [runLoop, hex, if_true, hstep, LoopResult.mk.injEq,
              List.mem_append] at hrow
            rcases hrow with hrow | hrow
            · exact hcreated b row hrow hex
            · exact ih3 row hrow
          · intro hfail
            simp only [runLoop, hex, hstep] at hfail ⊢
            simp only [if_true, if_pos] at hfail ⊢
            obtain ⟨ih4a, ih4b⟩ := ih4 hfail
            constructor
            · simp [hex, ih4a]
            · intro u hu hcur
              simp at hu
              rcases hu with hu | hu
              · simp [hu, attachAnalysis]
              · exact ih4b u hu hcur
    · obtain ⟨ih1, ih2, ih3, ih4⟩ := ih k
      refine ⟨?_, ?_, ?_, ?_⟩
      · simpa [runLoop, hex] using ih1
      · intro r hr
        simp only [runLoop, hex, Bool.false_eq_true, if_false] at hr
        exact ih2 r hr
      · intro row hrow
        simp only [runLoop, hex, Bool.false_eq_true, if_false] at hrow
        exact ih3 row hrow
      · intro hfail
        simp only [runLoop, hex, Bool.false_eq_true, if_false] at hfail ⊢
        obtain ⟨ih4a, ih4b⟩ := ih4 hfail
        constructor
        · simpa [hex] using ih4a
        · intro u hu hcur
          simp at hu
          rcases hu with hu | hu
          · rw [hu] at hcur; exact absurd hcur hex
          · exact ih4b u hu hcur

/-- **C4** (confirmed).  The telemetry route bulk-persists the whole raw
batch first and unconditionally; the per-record loop then calls
`analyzeHighCurrent` exactly for the rows whose `current` strictly exceeds
the fixed threshold and attaches the result; and no per-record failure
ever removes or rolls back a row persisted in step (1): for *every*
combination of per-record outcomes, aborts included, the first
`|store| + |batch|` rows of the final store are exactly the original
store followed by the batch, telemetry unchanged.  The only rows beyond
them are the ones `analyzeHighCurrent`'s success path itself inserted,
each belonging to an exceeding record and carrying its analysis. -/
theorem ingest_persists_before_analysis (store : List StoredRecord)
    (batch : List TelemetryRecord) (steps : Nat → RecStep) :
    (((ingest store batch steps).store.map StoredRecord.telemetry).take
        (store.length + batch.length) = store.map StoredRecord.telemetry ++ batch) ∧
    (∀ r ∈ (ingest store batch steps).analyzed, jsGt r.current appCurrentThreshold = true) ∧
    (∀ row ∈ (ingest store batch steps).store.drop (store.length + batch.length),
      jsGt row.telemetry.current appCurrentThreshold = true ∧ row.severity.isSome = true) ∧
    ((ingest store batch steps).failed = false →
      (ingest store batch steps).analyzed =
        batch.filter (fun r => jsGt r.current appCurrentThreshold)) ∧
    ((ingest store batch steps).failed = false →
      ∀ st ∈ (ingest store batch steps).store.drop store.length,
        jsGt st.telemetry.current appCurrentThreshold = true → st.severity.isSome = true) := by
  obtain ⟨h1, h2, h3, h4⟩ :=
    runLoop_spec steps (batch.map (fun r => ({ telemetry := r } : StoredRecord))) 0
  have hmap : (batch.map (fun r => ({ telemetry := r } : StoredRecord))).map
      StoredRecord.telemetry = batch := by
    simp [List.map_map, Function.comp_def]
  set L := runLoop steps 0 (batch.map (fun r => ({ telemetry := r } : StoredRecord))) with hL
  have hrows : L.rows.map StoredRecord.telemetry = batch := by rw [h1, hmap]
  have hrowlen : L.rows.length = batch.length := by
    have := congrArg List.length hrows
    simpa using this
  have hstore : (ingest store batch steps).store = (store ++ L.rows) ++ L.created := by
    simp [ingest, ← hL, List.append_assoc]
  have hfr : (ingest store batch steps).failed = L.failed := rfl
  have han : (ingest store batch steps).analyzed = L.analyzed := rfl
  refine ⟨?_, ?_, ?_, ?_, ?_⟩
  · rw [hstore, List.map_append, List.map_append, hrows]
    rw [show store.length + batch.length
        = (store.map StoredRecord.telemetry ++ batch).length from by simp]
    exact List.take_left _ _
  · intro r hr
    rw [han] at hr
    exact h2 r hr
  · intro row hrow
    rw [hstore] at hrow
    rw [show store.length + batch.length = (store ++ L.rows).length from by
      simp [hrowlen]] at hrow
    rw [List.drop_left] at hrow
    exact h3 row hrow
  · intro hfail
    rw [hfr] at hfail
    rw [han, (h4 hfail).1, hmap]
  · intro hfail st hst
    rw [hfr] at hfail
    rw [hstore, List.append_assoc, List.drop_left, List.mem_append] at hst
    rcases hst with hst | hst
    · exact (h4 hfail).2 st hst
    · intro _
      exact (h3 st hst).2

/-- Witness for `ingest_persists_before_analysis`: on the two-row demo
batch with fallback analyses, the loop completes, exactly the exceeding
row is analyzed, and the step-(1) prefix of the store is the batch. -/
theorem ingest_persists_before_analysis_witness :
    (ingest [] demoBatch demoSteps).failed = false ∧
    (ingest [] demoBatch demoSteps).analyzed =
      demoBatch.filter (fun r => jsGt r.current appCurrentThreshold) ∧
    (((ingest [] demoBatch demoSteps).store.map StoredRecord.telemetry).take
        (([] : List StoredRecord).length + demoBatch.length) =
      ([] : List StoredRecord).map StoredRecord.telemetry ++ demoBatch) :=
  ⟨by decide, (ingest_persists_before_analysis [] demoBatch demoSteps).2.2.2.1 (by decide),
   (ingest_persists_before_analysis [] demoBatch demoSteps).1⟩

/-! ## C9 — round-trip of the fence-stripping cleaner

Helper lemmas about the scanners.  `hasSub pat l = false` (no occurrence
of `pat` in `l`) makes a scan a no-op; the junction lemmas show that
appending the closing fence `'\n' :: triplePat` to a backtick-free list
creates no new pattern occurrence before the final backticks. -/

/-- A scan for `/```json\s*/` leaves a list without occurrences of the
pattern unchanged (any fuel). -/
theorem stripJsonFenceAux_no_match :
    ∀ (n : Nat) (l : List Char), hasSub jsonFencePat l = false → stripJsonFenceAux n l = l := by
  intro n
  induction n with
  | zero => intro l _; rfl
  | succ n ih =>
    intro l h
    cases l with
    | nil => rfl
    | cons c cs =>
      rw [hasSub, Bool.or_eq_false_iff] at h
      rw [stripJsonFenceAux, if_neg (by simp [h.1]), ih cs h.2]

/-- A scan for `/```\s*/` leaves a list without triple backticks
unchanged (any fuel). -/
theorem stripTripleAux_no_match :
    ∀ (n : Nat) (l : List Char), hasSub triplePat l = false → stripTripleAux n l = l := by
  intro n
  induction n with
  | zero => intro l _; rfl
  | succ n ih =>
    intro l h
    cases l with
    | nil => rfl
    | cons c cs =>
      rw [hasSub, Bool.or_eq_false_iff] at h
      rw [stripTripleAux, if_neg (by simp [h.1]), ih cs h.2]

/-- A prefix of a longer pattern is a prefix: `(p ++ q).isPrefixOf l`
implies `p.isPrefixOf l`. -/
theorem isPrefixOf_of_append_left :
    ∀ (p q l : List Char), (p ++ q).isPrefixOf l = true → p.isPrefixOf l = true := by
  intro p
  induction p with
  | nil => intro q l _; cases l <;> rfl
  | cons a as ih =>
    intro q l h
    cases l with
    | nil => simp [List.isPrefixOf] at h
    | cons b bs =>
      rw [List.cons_append, List.isPrefixOf, Bool.and_eq_true] at h
      rw [List.isPrefixOf, Bool.and_eq_true]
      exact ⟨h.1, ih q bs h.2⟩

/-- Junction lemma: gluing the closing fence `'\n' :: triplePat` after a
triple-backtick-free list cannot make the triple-backtick pattern start
before the final backticks. -/
theorem triple_not_prefix_append :
    ∀ (u : List Char), hasSub triplePat u = false →
      triplePat.isPrefixOf (u ++ '\n' :: triplePat) = false := by
  have hbq : (bq == '\n') = false := by decide
  intro u h
  match u with
  | [] => decide
  | [c] => simp [triplePat, List.isPrefixOf, hbq]
  | [c, d] => simp [triplePat, List.isPrefixOf, hbq]
  | c :: d :: e :: rest =>
    by_cases hc : c = bq
    · by_cases hd : d = bq
      · by_cases he : e = bq
        · exfalso
          have : triplePat.isPrefixOf (c :: d :: e :: rest) = true := by
            simp [triplePat, List.isPrefixOf, hc, hd, he]
          rw [hasSub, this] at h
          simp at h
        · simp only [triplePat, List.cons_append, List.isPrefixOf, Bool.and_eq_true,
            beq_iff_eq, Bool.and_eq_false_iff]
          simp only [← Bool.not_eq_true, Bool.and_eq_true, beq_iff_eq, not_and]
          exact Or.inr (Or.inr (Or.inl (fun h3 => he h3.symm)))
      · simp only [triplePat, List.cons_append, List.isPrefixOf]
        simp only [← Bool.not_eq_true, Bool.and_eq_true, beq_iff_eq, not_and]
        intro _ h2 _
        exact absurd h2.symm hd
    · simp only [triplePat, List.cons_append, List.isPrefixOf]
      simp only [← Bool.not_eq_true, Bool.and_eq_true, beq_iff_eq, not_and]
      intro h1 _ _
      exact absurd h1.symm hc

/-- No `/```json/` occurrence is created by appending the closing fence to
a triple-backtick-free list. -/
theorem hasSub_jsonPat_append_false :
    ∀ (t : List Char), hasSub triplePat t = false →
      hasSub jsonFencePat (t ++ '\n' :: triplePat) = false := by
  intro t
  induction t with
  | nil => intro _; decide
  | cons c t' ih =>
    intro h
    rw [hasSub, Bool.or_eq_false_iff] at h
    rw [List.cons_append, hasSub, Bool.or_eq_false_iff]
    refine ⟨?_, ih h.2⟩
    rw [← List.cons_append]
    by_cases hp : jsonFencePat.isPrefixOf ((c :: t') ++ '\n' :: triplePat) = true
    · exfalso
      have htri : triplePat.isPrefixOf ((c :: t') ++ '\n' :: triplePat) = true :=
        isPrefixOf_of_append_left triplePat ['j', 's', 'o', 'n'] _ hp
      have hfree : hasSub triplePat (c :: t') = false := by
        rw [hasSub, Bool.or_eq_false_iff]; exact h
      rw [triple_not_prefix_append (c :: t') hfree] at htri
      exact Bool.false_ne_true htri
    · exact Bool.eq_false_iff.mpr (fun hx => hp hx)

/-- The empty pattern is a prefix of everything. -/
theorem nil_isPrefixOf (l : List Char) : List.isPrefixOf [] l = true := by
  cases l <;> rfl

/-- The head surviving a `dropWhile` fails the predicate. -/
theorem dropWhile_head_not (p : Char → Bool) :
    ∀ (l : List Char) (c : Char) (cs : List Char), l.dropWhile p = c :: cs → p c = false := by
  intro l
  induction l with
  | nil => intro c cs h; simp at h
  | cons a as ih =>
    intro c cs h
    rw [List.dropWhile_cons] at h
    by_cases ha : p a = true
    · rw [if_pos ha] at h
      exact ih c cs h
    · rw [if_neg ha] at h
      cases h
      exact Bool.eq_false_iff.mpr ha

/-- `dropWhile` is idempotent. -/
theorem dropWhile_dropWhile_self (p : Char → Bool) (l : List Char) :
    (l.dropWhile p).dropWhile p = l.dropWhile p := by
  cases h : l.dropWhile p with
  | nil => rfl
  | cons c cs =>
    rw [List.dropWhile_cons, if_neg]
    simp [dropWhile_head_not p l c cs h]

/-- `dropWhile` removes an initial segment: the original list is some
front part followed by the `dropWhile` result. -/
theorem exists_append_dropWhile (p : Char → Bool) :
    ∀ l : List Char, ∃ u, l = u ++ l.dropWhile p := by
  intro l
  induction l with
  | nil => exact ⟨[], rfl⟩
  | cons a as ih =>
    by_cases ha : p a = true
    · obtain ⟨u, hu⟩ := ih
      exact ⟨a :: u, by rw [List.dropWhile_cons, if_pos ha, List.cons_append, ← hu]⟩
    · exact ⟨[], by rw [List.dropWhile_cons, if_neg ha, List.nil_append]⟩

/-- Occurrence-freeness survives `dropWhile` (a suffix of an
occurrence-free list is occurrence-free). -/
theorem hasSub_dropWhile_false (pat : List Char) (p : Char → Bool) :
    ∀ l : List Char, hasSub pat l = false → hasSub pat (l.dropWhile p) = false := by
  intro l
  induction l with
  | nil => intro h; simpa using h
  | cons a as ih =>
    intro h
    rw [hasSub, Bool.or_eq_false_iff] at h
    rw [List.dropWhile_cons]
    by_cases ha : p a = true
    · rw [if_pos ha]
      exact ih h.2
    · rw [if_neg ha, hasSub, Bool.or_eq_false_iff]
      exact h

/-- Splitting `dropWhile jsWs` over the glued closing fence. -/
theorem dropWhile_ws_glued :
    ∀ t : List Char, (t ++ '\n' :: triplePat).dropWhile jsWs =
      (if t.dropWhile jsWs = [] then triplePat else t.dropWhile jsWs ++ '\n' :: triplePat) := by
  intro t
  induction t with
  | nil => decide
  | cons c t' ih =>
    rw [List.cons_append, List.dropWhile_cons, List.dropWhile_cons]
    by_cases hc : jsWs c = true
    · rw [if_pos hc, if_pos hc, ih]
    · rw [if_neg hc, if_neg hc, if_neg (by simp), List.cons_append]

/-- The `/```\s*/` scan over a triple-backtick-free list glued to the
closing fence copies the list, keeps the newline, and eats the fence. -/
theorem stripTripleAux_glued :
    ∀ (t : List Char), hasSub triplePat t = false →
      ∀ n : Nat, t.length + 4 ≤ n →
        stripTripleAux n (t ++ '\n' :: triplePat) = t ++ ['\n'] := by
  intro t
  induction t with
  | nil =>
    intro _ n hn
    obtain ⟨m, rfl⟩ : ∃ m, n = m + 4 := ⟨n - 4, by omega⟩
    have h1 : triplePat.isPrefixOf ('\n' :: triplePat) = false := by decide
    have h2 : triplePat.isPrefixOf triplePat = true := by decide
    simp [stripTripleAux, h1, h2, triplePat, jsWs]
  | cons c t' ih =>
    intro h n hn
    obtain ⟨m, rfl⟩ : ∃ m, n = m + 1 := ⟨n - 1, by omega⟩
    rw [hasSub, Bool.or_eq_false_iff] at h
    have hj : triplePat.isPrefixOf ((c :: t') ++ '\n' :: triplePat) = false :=
      triple_not_prefix_append (c :: t') (by rw [hasSub, Bool.or_eq_false_iff]; exact h)
    rw [List.cons_append] at hj
    rw [List.cons_append, stripTripleAux, if_neg (by simp [hj]), ih h.2 m (by simp at hn ⊢; omega)]
    rw [List.cons_append]

/-- A list with non-whitespace first and last characters is fixed by
`trimChars`. -/
theorem trimChars_no_ws_ends (c d : Char) (m : List Char)
    (hc : jsWs c = false) (hd : jsWs d = false) :
    trimChars (c :: (m ++ [d])) = c :: (m ++ [d]) := by
  unfold trimChars dropTrailWs
  rw [List.dropWhile_cons, if_neg (by simp [hc])]
  rw [show (c :: (m ++ [d])).reverse = d :: (m.reverse ++ [c]) from by simp]
  rw [List.dropWhile_cons, if_neg (by simp [hd])]
  simp

/-- `trimChars` is idempotent (the invariance property that makes
`JSON.parse` insensitive to the final `.trim()`). -/
theorem trimChars_idem (l : List Char) : trimChars (trimChars l) = trimChars l := by
  have hr : trimChars l = ((l.dropWhile jsWs).reverse.dropWhile jsWs).reverse := rfl
  cases hrr : ((l.dropWhile jsWs).reverse.dropWhile jsWs).reverse with
  | nil => rw [hr, hrr]; rfl
  | cons c cs =>
    obtain ⟨u, hu⟩ := exists_append_dropWhile jsWs (l.dropWhile jsWs).reverse
    have ht2eq : l.dropWhile jsWs =
        ((l.dropWhile jsWs).reverse.dropWhile jsWs).reverse ++ u.reverse := by
      have h0 := congrArg List.reverse hu
      simpa [List.reverse_append] using h0
    rw [hrr] at ht2eq
    have hchead : jsWs c = false := by
      apply dropWhile_head_not jsWs l c (cs ++ u.reverse)
      rw [ht2eq, List.cons_append]
    rw [hr, hrr]
    unfold trimChars dropTrailWs
    rw [List.dropWhile_cons, if_neg (by simp [hchead])]
    have hback : (c :: cs).reverse = (l.dropWhile jsWs).reverse.dropWhile jsWs := by
      rw [← hrr]; simp
    rw [hback, dropWhile_dropWhile_self, ← hback]
    simp

/-- The central computation for C9: on a triple-backtick-free body `t`,
the whole cleaning pipeline applied to the fenced wrapping
`'```json\n' + t + '\n```'` returns exactly `t.trim()`. -/
theorem cleanChars_fenceWrap (t : List Char) (h : hasSub triplePat t = false) :
    cleanChars (fenceWrap t) = trimChars t := by
  have hfw : fenceWrap t =
      bq :: (([bq, bq, 'j', 's', 'o', 'n', '\n'] ++ t ++ ['\n', bq, bq]) ++ [bq]) := by
    simp [fenceWrap, jsonFencePat, triplePat]
  have htrim1 : trimChars (fenceWrap t) = fenceWrap t := by
    rw [hfw]
    exact trimChars_no_ws_ends bq bq _ (by decide) (by decide)
  have hcons : fenceWrap t =
      bq :: bq :: bq :: 'j' :: 's' :: 'o' :: 'n' :: '\n' :: (t ++ '\n' :: triplePat) := by
    simp [fenceWrap, jsonFencePat]
  have hlen : (fenceWrap t).length = t.length + 12 := by
    rw [hcons]; simp [triplePat]
  have hpre : jsonFencePat.isPrefixOf
      (bq :: bq :: bq :: 'j' :: 's' :: 'o' :: 'n' :: '\n' :: (t ++ '\n' :: triplePat)) = true := by
    simp [jsonFencePat, List.isPrefixOf, nil_isPrefixOf]
  have hstep : stripJsonFence (fenceWrap t) =
      stripJsonFenceAux (t.length + 11) ((t ++ '\n' :: triplePat).dropWhile jsWs) := by
    unfold stripJsonFence
    rw [hlen, hcons, stripJsonFenceAux, if_pos hpre]
    have hws : jsWs '\n' = true := by decide
    simp [jsonFencePat, List.dropWhile_cons, hws]
  unfold cleanChars
  rw [htrim1, hstep, dropWhile_ws_glued t]
  by_cases hws0 : t.dropWhile jsWs = []
  · rw [if_pos hws0]
    rw [stripJsonFenceAux_no_match _ triplePat (by decide)]
    rw [show stripTriple triplePat = [] from by decide]
    have hrhs : trimChars t = [] := by
      unfold trimChars dropTrailWs
      rw [hws0]
      rfl
    rw [hrhs]
    rfl
  · rw [if_neg hws0]
    obtain ⟨c, cs, hcc⟩ : ∃ c cs, t.dropWhile jsWs = c :: cs := by
      cases hx : t.dropWhile jsWs with
      | nil => exact absurd hx hws0
      | cons c cs => exact ⟨c, cs, rfl⟩
    have hchead : jsWs c = false := dropWhile_head_not jsWs t c cs hcc
    have hfree2 : hasSub triplePat (t.dropWhile jsWs) = false :=
      hasSub_dropWhile_false triplePat jsWs t h
    have hnomatch : hasSub jsonFencePat (t.dropWhile jsWs ++ '\n' :: triplePat) = false :=
      hasSub_jsonPat_append_false _ hfree2
    rw [stripJsonFenceAux_no_match _ _ hnomatch]
    have hglue : stripTriple (t.dropWhile jsWs ++ '\n' :: triplePat) =
        t.dropWhile jsWs ++ ['\n'] := by
      unfold stripTriple
      apply stripTripleAux_glued _ hfree2
      simp [triplePat]
    rw [hglue, hcc]
    unfold trimChars dropTrailWs
    rw [List.cons_append, List.dropWhile_cons, if_neg (by simp [hchead])]
    rw [← List.cons_append, show ((c :: cs) ++ ['\n']).reverse = '\n' :: (c :: cs).reverse from by simp]
    rw [List.dropWhile_cons, if_pos (by decide)]
    rw [hcc]

/-- **C9** (counterexample to the claim as stated).  The claim quantifies
over *every* JSON object text `t`.  For `t = backtickJson`, i.e.
`{"a":"```"}` — a JSON object text whose string value contains a triple
backtick — the cleaning pipeline applied to the fenced wrapping yields
`{"a":""}`, a different JSON value than `t`'s `{"a":"```"}`: the inner
backticks are eaten by the global `/```\s*/g` replacement.  Formally:
JavaScript `JSON.parse` is insensitive to surrounding whitespace, and for
the whitespace-insensitive reading function `trimChars` the two parses
differ (they differ even as raw texts). -/
theorem fence_roundtrip_fails_on_backticks :
    (∀ l, trimChars (trimChars l) = trimChars l) ∧
    trimChars (cleanChars (fenceWrap backtickJson)) ≠ trimChars backtickJson ∧
    cleanChars (fenceWrap backtickJson) ≠ backtickJson :=
  ⟨trimChars_idem, by decide, by decide⟩

/-- **C9** (amended claim).  For every JSON object text `t` that does not
contain a triple backtick, cleaning the fenced wrapping
`'```json\n' + t + '\n```'` and parsing yields exactly the same value as
parsing `t` directly, for every parse function that is insensitive to
leading/trailing whitespace (as `JSON.parse` is): the cleaned text is
exactly `t.trim()`. -/
theorem fence_roundtrip_of_no_triple_backtick {α : Type} (parse : List Char → α)
    (hp : ∀ l, parse (trimChars l) = parse l) (t : List Char)
    (h : hasSub triplePat t = false) :
    parse (cleanChars (fenceWrap t)) = parse t := by
  rw [cleanChars_fenceWrap t h, hp]

/-- Witness for `fence_roundtrip_of_no_triple_backtick` at the
backtick-free JSON text `{"a":1}` and the whitespace-insensitive reading
function `trimChars`. -/
theorem fence_roundtrip_of_no_triple_backtick_witness :
    hasSub triplePat plainJson = false ∧
    trimChars (cleanChars (fenceWrap plainJson)) = trimChars plainJson :=
  ⟨by decide, fence_roundtrip_of_no_triple_backtick trimChars trimChars_idem plainJson (by decide)⟩

/-- Witness for `analyzeHighCurrent_always_invokes_oracle`: a call made at
`now = 60` (inside any cool-down window a previous 429 would have set)
still reaches the oracle transport. -/
theorem analyzeHighCurrent_always_invokes_oracle_witness :
    (analyzeHighCurrent 60 sampleData (.failure true)).2.1 = true :=
  analyzeHighCurrent_always_invokes_oracle 60 sampleData (.failure true)

/-- Witness for `analyzeHighCurrent_isCurrentExceeded_local`: two runs on
the sample telemetry, one with an oracle reply claiming
`isCurrentExceeded = false`, one with a transport failure. -/
theorem analyzeHighCurrent_isCurrentExceeded_local_witness :
    (analyzeHighCurrent 0 sampleData (.ok fatalParsed)).1.isCurrentExceeded
        = jsGt sampleData.current sampleData.CURRENT_THRESHOLD ∧
    (analyzeHighCurrent 0 sampleData (.ok fatalParsed)).1.isCurrentExceeded
        = (analyzeHighCurrent 5 sampleData (.failure true)).1.isCurrentExceeded :=
  analyzeHighCurrent_isCurrentExceeded_local 0 5 sampleData (.ok fatalParsed) (.failure true)
